import Mathlib

/-!
Verification development for the box-geometry, label-encoding and anchor
utilities of the TensorFlowModels repository.  Real-valued tensor entries are
modelled as rationals; the functions below are shallow embeddings of the
Python sources (`yolo/ops/box_ops.py`, `yolo/ops/preprocessing_ops.py`,
`yolo/utils/YoloKmeans.py`, `centernet/dataloaders/centernet_input.py`),
specialised to a single image (no batch dimension), with a box represented as
its 4 coordinates.
-/

/-- A box as a 4-vector of rationals.  Depending on the pipeline stage the
layout is either corner form `(ymin, xmin, ymax, xmax)` or center form
`(xcenter, ycenter, width, height)`. -/
structure Box where
  c0 : ℚ
  c1 : ℚ
  c2 : ℚ
  c3 : ℚ
deriving DecidableEq, Repr

/-- Modelled from the spec: `yolo/ops/math_ops.py` is not among the sources;
per the spec the divisions in the IoU and overlap computations are guarded to
return 0 instead of NaN when the denominator is 0 (`divide_no_nan`). -/
def divide_no_nan (a b : ℚ) : ℚ :=
  if b = 0 then 0 else a / b

/-- `tf.clip_by_value` on a scalar. -/
def clip_by_value (t lo hi : ℚ) : ℚ :=
  min (max t lo) hi

/-- `box_ops.yxyx_to_xcycwh`: corner form to center form. -/
def yxyx_to_xcycwh (box : Box) : Box :=
  { c0 := (box.c3 + box.c1) / 2
    c1 := (box.c2 + box.c0) / 2
    c2 := box.c3 - box.c1
    c3 := box.c2 - box.c0 }

/-- `box_ops.xcycwh_to_yxyx`: center form to corner form. -/
def xcycwh_to_yxyx (box : Box) : Box :=
  { c0 := box.c1 - box.c3 / 2
    c1 := box.c0 - box.c2 / 2
    c2 := box.c1 + box.c3 / 2
    c3 := box.c0 + box.c2 / 2 }

/-- `box_ops.intersect_and_union`.  When `yxyx` is false the inputs are in
center form and are first converted to corner form. -/
def intersect_and_union (box1 box2 : Box) (yxyx : Bool) : ℚ × ℚ :=
  let b1 := if yxyx then box1 else xcycwh_to_yxyx box1
  let b2 := if yxyx then box2 else xcycwh_to_yxyx box2
  let i0 := max b1.c0 b2.c0
  let i1 := max b1.c1 b2.c1
  let a0 := min b1.c2 b2.c2
  let a1 := min b1.c3 b2.c3
  let w0 := max (a0 - i0) 0
  let w1 := max (a1 - i1) 0
  let intersection := w0 * w1
  let box1_area := (b1.c2 - b1.c0) * (b1.c3 - b1.c1)
  let box2_area := (b2.c2 - b2.c0) * (b2.c3 - b2.c1)
  (intersection, box1_area + box2_area - intersection)

/-- `box_ops.smallest_encompassing_box`, embedded exactly as written: the
max corner of the result is the elementwise `tf.math.minimum` of the two max
corners (line 77 of `box_ops.py`), and the whole box is zeroed when the
resulting area is 0. -/
def smallest_encompassing_box (box1 box2 : Box) (yxyx : Bool) : Box :=
  let b1 := if yxyx then box1 else xcycwh_to_yxyx box1
  let b2 := if yxyx then box2 else xcycwh_to_yxyx box2
  let m0 := min b1.c0 b2.c0
  let m1 := min b1.c1 b2.c1
  let a0 := min b1.c2 b2.c2
  let a1 := min b1.c3 b2.c3
  let bca := (a0 - m0) * (a1 - m1)
  let box_c : Box := if bca = 0 then ⟨0, 0, 0, 0⟩ else ⟨m0, m1, a0, a1⟩
  if yxyx then box_c else yxyx_to_xcycwh box_c

/-- `box_ops.compute_iou`: intersection over union with the guarded divide. -/
def compute_iou (box1 box2 : Box) (yxyx : Bool) : ℚ :=
  let iu := intersect_and_union box1 box2 yxyx
  divide_no_nan iu.1 iu.2

/-- `box_ops.compute_giou`: returns the pair `(iou, giou)`. -/
def compute_giou (box1 box2 : Box) (yxyx : Bool) : ℚ × ℚ :=
  let iu := intersect_and_union box1 box2 yxyx
  let iou := divide_no_nan iu.1 iu.2
  let boxc0 := smallest_encompassing_box box1 box2 yxyx
  let boxc := if yxyx then yxyx_to_xcycwh boxc0 else boxc0
  let c := boxc.c2 * boxc.c3
  let regularization := divide_no_nan (c - iu.2) c
  (iou, clip_by_value (iou - regularization) (-1) 1)

/-- Constructor arguments of `CenterNetParser.__init__`
(`centernet/dataloaders/centernet_input.py`). -/
structure CParserArgs where
  image_w : ℤ
  image_h : ℤ
  num_classes : ℤ
  max_num_instances : ℤ
  use_gaussian_bump : Bool
  gaussian_rad : ℤ
  gaussian_iou : ℚ
  output_dims : ℤ
  dtype : String
deriving DecidableEq, Repr

/-- The fields stored on a `CenterNetParser` instance by `__init__`. -/
structure CParser where
  image_w : ℤ
  image_h : ℤ
  num_classes : ℤ
  max_num_instances : ℤ
  gaussian_iou : ℚ
  use_gaussian_bump : Bool
  gaussian_rad : ℤ
  output_dims : ℤ
  dtype : String
deriving DecidableEq, Repr

/-- `CenterNetParser.__init__`: stores the configuration.  Note that lines
55-56 of `centernet_input.py` assign the literals `True` and `-1` to
`self._use_gaussian_bump` and `self._gaussian_rad`, ignoring the constructor
arguments.  An unsupported `dtype` string raises an exception. -/
def cparser_init (a : CParserArgs) : Except String CParser :=
  if a.dtype = "float16" ∨ a.dtype = "bfloat16" ∨ a.dtype = "float32" then
    Except.ok
      { image_w := a.image_w
        image_h := a.image_h
        num_classes := a.num_classes
        max_num_instances := a.max_num_instances
        gaussian_iou := a.gaussian_iou
        use_gaussian_bump := true
        gaussian_rad := -1
        output_dims := a.output_dims
        dtype := a.dtype }
  else
    Except.error "Unsupported datatype used in parser only float16, bfloat16, or float32"

/-- Two argument records that agree on every field except possibly
`use_gaussian_bump` and `gaussian_rad`. -/
def same_but_gaussian (a b : CParserArgs) : Prop :=
  a.image_w = b.image_w ∧ a.image_h = b.image_h ∧ a.num_classes = b.num_classes ∧
    a.max_num_instances = b.max_num_instances ∧ a.gaussian_iou = b.gaussian_iou ∧
    a.output_dims = b.output_dims ∧ a.dtype = b.dtype

/-- Per-instance IoU of a ground-truth box against every (rescaled) anchor.
In `get_best_anchor2` each anchor is paired with the instance's own center
(`anchor_xy`) before `compute_iou` is applied, so only widths and heights
matter. -/
def anchor_ious (box : Box) (anchors : List (ℚ × ℚ)) (width height : ℚ) : List ℚ :=
  anchors.map (fun a => compute_iou box ⟨box.c0, box.c1, a.1 / width, a.2 / height⟩ false)

/-- The ranking order used by `tf.math.top_k` with `sorted=True` on the pairs
(index, value): larger values first, ties broken toward the lower index. -/
def rank_rel (p q : ℕ × ℚ) : Prop :=
  q.2 < p.2 ∨ (p.2 = q.2 ∧ p.1 ≤ q.1)

instance (p q : ℕ × ℚ) : Decidable (rank_rel p q) := by
  unfold rank_rel
  infer_instance

/-- Pairs each value with its position, starting at `n`. -/
def enum_from (n : ℕ) : List ℚ → List (ℕ × ℚ)
  | [] => []
  | v :: rest => (n, v) :: enum_from (n + 1) rest

/-- `tf.math.top_k` over a full vector of values, keeping the indices. -/
def top_k_pairs (values : List ℚ) : List (ℕ × ℚ) :=
  List.insertionSort rank_rel (enum_from 0 values)

/-- The per-instance anchor-index vector of `get_best_anchor2` before the
degeneracy masking: the rank-0 index unconditionally, then each further
ranked index when its IoU clears the threshold, else the sentinel -1. -/
def best_anchor_indices (box : Box) (anchors : List (ℚ × ℚ)) (width height thresh : ℚ) :
    List ℤ :=
  match top_k_pairs (anchor_ious box anchors width height) with
  | [] => []
  | r0 :: rest => (r0.1 : ℤ) :: rest.map (fun p => if thresh ≤ p.2 then (p.1 : ℤ) else -1)

/-- The per-instance anchor-index vector of `get_best_anchor2` including the
final `tf.where(true_prod > 0, iou_index, -1)` masking on the product of the
instance's width and height. -/
def instance_anchor_indices (box : Box) (anchors : List (ℚ × ℚ)) (width height thresh : ℚ) :
    List ℤ :=
  if 0 < box.c2 * box.c3 then best_anchor_indices box anchors width height thresh
  else List.replicate anchors.length (-1)

/-- `preprocessing_ops.get_best_anchor2` on one image: per instance, the
ranked (and thresholded) anchor indices and the ranked IoU values. -/
def get_best_anchor2 (y_true : List Box) (anchors : List (ℚ × ℚ)) (width height thresh : ℚ) :
    List (List ℤ) × List (List ℚ) :=
  (y_true.map (fun b => instance_anchor_indices b anchors width height thresh),
   y_true.map (fun b => (top_k_pairs (anchor_ious b anchors width height)).map (fun p => p.2)))

/-- `preprocessing_ops.get_best_anchor`: zeroes the box centers and defers to
`get_best_anchor2`. -/
def get_best_anchor (y_true : List Box) (anchors : List (ℚ × ℚ)) (width height thresh : ℚ) :
    List (List ℤ) × List (List ℚ) :=
  get_best_anchor2 (y_true.map (fun b => ⟨0, 0, b.c2, b.c3⟩)) anchors width height thresh

/-- `preprocessing_ops._gen_utility`: an instance is viable when not (both
width and height are ≤ 0), its center coordinates are not < 0, and its center
coordinates are not ≥ 1. -/
def gen_utility (box : Box) : Bool :=
  let eq0 := decide (box.c2 ≤ 0) && decide (box.c3 ≤ 0)
  let gtlb := decide (box.c0 < 0) || decide (box.c1 < 0)
  let ltub := decide (1 ≤ box.c0) || decide (1 ≤ box.c1)
  !(eq0 || gtlb || ltub)

/-- Positions inside the scale's anchor mask holding the anchor id `a`
(the last axis of the `anchors == mask` comparison). -/
def mask_positions (a : ℚ) (mask : List ℚ) : List ℕ :=
  (mask.enum.filter (fun p => decide (p.2 = a))).map (fun p => p.1)

/-- The `viable_primary` triples of `_get_num_reps`: for each viable instance,
the mask positions matched by its rank-0 anchor, as (instance, 0, slot), in
the row-major order produced by `tf.where`. -/
def viable_primary (anchors : List (List ℚ)) (mask : List ℚ) (bm : List Bool) :
    List (ℕ × ℕ × ℕ) :=
  (List.range anchors.length).flatMap (fun i =>
    if bm.getD i false then
      (mask_positions ((anchors.getD i []).getD 0 (-1)) mask).map (fun m => (i, 0, m))
    else [])

/-- The `viable_alternate` triples of `_get_num_reps`: the rank-0 entry is
replaced by the fill-in value -1, so only ranks ≥ 1 can match the mask; the
triples come out in the row-major order produced by `tf.where`. -/
def viable_alternate (anchors : List (List ℚ)) (mask : List ℚ) (bm : List Bool) :
    List (ℕ × ℕ × ℕ) :=
  (List.range anchors.length).flatMap (fun i =>
    if bm.getD i false then
      let alt := -1 :: (anchors.getD i []).drop 1
      (List.range alt.length).flatMap (fun r =>
        (mask_positions (alt.getD r (-1)) mask).map (fun m => (i, r, m)))
    else [])

/-- How many of the instance's ranked anchors fall in this scale's mask
(the `reps` output of `_get_num_reps`). -/
def num_reps_of (ranks : List ℚ) (mask : List ℚ) : ℕ :=
  (ranks.filter (fun a => mask.any (fun mv => decide (mv = a)))).length

/-- `preprocessing_ops._get_num_reps` packaged as a triple. -/
def get_num_reps (anchors : List (List ℚ)) (mask : List ℚ) (bm : List Bool) :
    List ℕ × List (ℕ × ℕ × ℕ) × List (ℕ × ℕ × ℕ) :=
  (anchors.map (fun ranks => num_reps_of ranks mask),
   viable_primary anchors mask bm,
   viable_alternate anchors mask bm)

/-- `tf.cast` from float to int32 truncates toward zero. -/
def trunc_cast (q : ℚ) : ℤ :=
  if 0 ≤ q then ⌊q⌋ else -⌊-q⌋

/-- A grid destination (row, col, anchor slot). -/
abbrev GridIdx := ℤ × ℤ × ℕ

/-- One assignment record written by `write_grid`: the box, the constant
objectness 1, the class id, the matched IoU and the duplicate count. -/
structure Sample where
  box : Box
  conf : ℚ
  cls : ℚ
  iou : ℚ
  reps : ℚ
deriving DecidableEq, Repr

/-- The (destination, record) pair written by one iteration of the
`write_grid` loop for the viable triple `t = (instance, rank, slot)`. -/
def grid_write_of (boxes : List Box) (classes : List ℚ) (ious : List (List ℚ))
    (numreps : List ℕ) (height width : ℚ) (t : ℕ × ℕ × ℕ) : GridIdx × Sample :=
  let box := boxes.getD t.1 ⟨0, 0, 0, 0⟩
  ((trunc_cast (box.c1 * height), trunc_cast (box.c0 * width), t.2.2),
   { box := box
     conf := 1
     cls := classes.getD t.1 0
     iou := (ious.getD t.1 []).getD t.2.1 0
     reps := (numreps.getD t.1 0 : ℚ) })

/-- `preprocessing_ops.write_grid`: walks the viable triples, stopping as soon
as `num_written` reaches `num_instances`, and returns the written
(destination, record) pairs together with the updated counter. -/
def write_grid (viable : List (ℕ × ℕ × ℕ)) (numreps : List ℕ) (boxes : List Box)
    (classes : List ℚ) (ious : List (List ℚ)) (height width : ℚ)
    (num_written num_instances : ℕ) : List (GridIdx × Sample) × ℕ :=
  match viable with
  | [] => ([], num_written)
  | t :: rest =>
    if num_instances ≤ num_written then ([], num_written)
    else
      let w := grid_write_of boxes classes ious numreps height width t
      let res := write_grid rest numreps boxes classes ious height width
        (num_written + 1) num_instances
      (w :: res.1, res.2)

/-- The ordered write list produced by `build_grided_gt_ind`: the primary
`write_grid` pass followed, when the tie breaker is enabled, by the alternate
pass continuing the same counter.  The capacity `num_instances` is the number
of (padded) boxes. -/
def grid_writes (boxes : List Box) (classes : List ℚ) (anchors : List (List ℚ))
    (ious : List (List ℚ)) (mask : List ℚ) (size : ℚ) (use_tie_breaker : Bool) :
    List (GridIdx × Sample) :=
  let bm := boxes.map gen_utility
  let nr := anchors.map (fun ranks => num_reps_of ranks mask)
  let cap := boxes.length
  let p := write_grid (viable_primary anchors mask bm) nr boxes classes ious size size 0 cap
  let a :=
    if use_tie_breaker then
      write_grid (viable_alternate anchors mask bm) nr boxes classes ious size size p.2 cap
    else ([], p.2)
  p.1 ++ a.1

/-- `tf.tensor_scatter_nd_add` of the records' objectness constants onto an
all-zero grid: the `full` output of `build_grided_gt_ind`. -/
def scatter_add_ones (writes : List (GridIdx × Sample)) : GridIdx → ℚ :=
  writes.foldl (fun g w idx => if idx = w.1 then g idx + w.2.conf else g idx) (fun _ => 0)

/-- Sequential scatter-update of the ordered write list into a dense grid:
updates are applied in list order, a later update to the same destination
replacing the earlier one (the semantics of `tf.tensor_scatter_nd_update`
used by the reference scatter pass kept at the bottom of
`preprocessing_ops.py`). -/
def scatter_update (writes : List (GridIdx × Sample)) : GridIdx → Option Sample :=
  writes.foldl (fun g w idx => if idx = w.1 then some w.2 else g idx) (fun _ => none)

/-- `preprocessing_ops._pad_max_instances` on a list. -/
def pad_max_instances {α : Type} (l : List α) (n : ℕ) (fill : α) : List α :=
  l.take n ++ List.replicate (n - l.length) fill

/-- The outputs of `build_grided_gt_ind`. -/
structure GridGt where
  indexes : List GridIdx
  samples : List Sample
  full : GridIdx → ℚ

/-- `preprocessing_ops.build_grided_gt_ind` on one image: the padded index
and record lists plus the scatter-added objectness count grid. -/
def build_grided_gt_ind (boxes : List Box) (classes : List ℚ) (anchors : List (List ℚ))
    (ious : List (List ℚ)) (mask : List ℚ) (size : ℚ) (use_tie_breaker : Bool) : GridGt :=
  let writes := grid_writes boxes classes anchors ious mask size use_tie_breaker
  let n := boxes.length
  { indexes := pad_max_instances (writes.map (fun w => w.1)) n (0, 0, 0)
    samples := pad_max_instances (writes.map (fun w => w.2)) n ⟨⟨0, 0, 0, 0⟩, 0, 0, 0, 0⟩
    full := scatter_add_ones writes }

/-- `YoloKmeans.iou`: both boxes are prefixed with a zero center, so this is
the IoU of the two (width, height) pairs placed at the origin. -/
def km_iou (b c : ℚ × ℚ) : ℚ :=
  compute_iou ⟨0, 0, b.1, b.2⟩ ⟨0, 0, c.1, c.2⟩ false

/-- `np.argmin`: index of the first occurrence of the minimum. -/
def argmin_idx : List ℚ → ℕ
  | [] => 0
  | [_] => 0
  | x :: y :: rest =>
    let j := argmin_idx (y :: rest)
    if x ≤ (y :: rest).getD j 0 then 0 else j + 1

/-- The assignment step of `YoloKmeans.run_kmeans`: each box goes to the
cluster minimising the distance `1 - iou`. -/
def km_assign (boxes clusters : List (ℚ × ℚ)) : List ℕ :=
  boxes.map (fun b => argmin_idx (clusters.map (fun c => 1 - km_iou b c)))

/-- Componentwise mean of a list of (width, height) pairs.  `np.mean` of an
empty selection is NaN, which has no rational counterpart; here the total
division of ℚ makes the empty mean (0, 0). -/
def mean_wh (l : List (ℚ × ℚ)) : ℚ × ℚ :=
  ((l.map (fun p => p.1)).sum / (l.length : ℚ),
   (l.map (fun p => p.2)).sum / (l.length : ℚ))

/-- The centroid update step of `YoloKmeans.run_kmeans`. -/
def km_update (boxes : List (ℚ × ℚ)) (curr : List ℕ) (k : ℕ) : List (ℚ × ℚ) :=
  (List.range k).map (fun i =>
    mean_wh (((boxes.zip curr).filter (fun p => decide (p.2 = i))).map (fun p => p.1)))

/-- The `while num_iters < max_iter` loop of `run_kmeans`, with the remaining
iteration budget as fuel; returns the clusters and the number of completed
assign-update iterations. -/
def kmeans_loop (boxes : List (ℚ × ℚ)) :
    ℕ → List (ℚ × ℚ) → List ℕ → ℕ → List (ℚ × ℚ) × ℕ
  | 0, clusters, _, iters => (clusters, iters)
  | fuel + 1, clusters, last, iters =>
    if km_assign boxes clusters = last then (clusters, iters)
    else
      kmeans_loop boxes fuel (km_update boxes (km_assign boxes clusters) clusters.length)
        (km_assign boxes clusters) (iters + 1)

/-- Ordering of (width, height) pairs by area, the sort key of `run_kmeans`. -/
def area_le (a b : ℚ × ℚ) : Prop :=
  a.1 * a.2 ≤ b.1 * b.2

instance (a b : ℚ × ℚ) : Decidable (area_le a b) := by
  unfold area_le
  infer_instance

/-- The final `sorted(clusters, key=lambda x: x[0] * x[1])` of `run_kmeans`. -/
def sort_by_area (l : List (ℚ × ℚ)) : List (ℚ × ℚ) :=
  List.insertionSort area_le l

/-- `YoloKmeans.run_kmeans` with the randomly sampled initial clusters passed
in explicitly; `last` starts as the all-zero assignment.  Returns the area
sorted clusters and the completed iteration count. -/
def run_kmeans (boxes init_clusters : List (ℚ × ℚ)) (max_iter : ℕ) :
    List (ℚ × ℚ) × ℕ :=
  let res := kmeans_loop boxes max_iter init_clusters (List.replicate boxes.length 0) 0
  (sort_by_area res.1, res.2)

instance : IsTotal (ℚ × ℚ) area_le :=
  ⟨fun a b => le_total (a.1 * a.2) (b.1 * b.2)⟩

instance : IsTrans (ℚ × ℚ) area_le :=
  ⟨fun a b c h1 h2 => by
    unfold area_le at *
    exact le_trans h1 h2⟩

instance : IsTotal (ℕ × ℚ) rank_rel :=
  ⟨fun p q => by
    unfold rank_rel
    rcases lt_trichotomy p.2 q.2 with h | h | h
    · exact Or.inr (Or.inl h)
    · rcases le_total p.1 q.1 with hi | hi
      · exact Or.inl (Or.inr ⟨h, hi⟩)
      · exact Or.inr (Or.inr ⟨h.symm, hi⟩)
    · exact Or.inl (Or.inl h)⟩

instance : IsTrans (ℕ × ℚ) rank_rel :=
  ⟨fun p q s hpq hqs => by
    unfold rank_rel at *
    rcases hpq with h1 | ⟨e1, i1⟩ <;> rcases hqs with h2 | ⟨e2, i2⟩
    · exact Or.inl (lt_trans h2 h1)
    · exact Or.inl (e2 ▸ h1)
    · exact Or.inl (by rw [e1]; exact h2)
    · exact Or.inr ⟨e1.trans e2, le_trans i1 i2⟩⟩

/-- Claim C8: for every valid corner-form box (ymax ≥ ymin and xmax ≥ xmin),
the conversions `yxyx_to_xcycwh` and `xcycwh_to_yxyx` compose to the identity
in both orders, exactly, in rational arithmetic. -/
theorem conversion_roundtrip (b : Box) (h1 : b.c0 ≤ b.c2) (h2 : b.c1 ≤ b.c3) :
    xcycwh_to_yxyx (yxyx_to_xcycwh b) = b ∧ yxyx_to_xcycwh (xcycwh_to_yxyx b) = b := by
  obtain ⟨c0, c1, c2, c3⟩ := b
  constructor <;>
    · simp only [yxyx_to_xcycwh, xcycwh_to_yxyx, Box.mk.injEq]
      refine ⟨by ring, by ring, by ring, by ring⟩

/-- Witness for C8 at the concrete valid box (0, 0, 2, 3). -/
theorem conversion_roundtrip_witness :
    xcycwh_to_yxyx (yxyx_to_xcycwh ⟨0, 0, 2, 3⟩) = ⟨0, 0, 2, 3⟩ ∧
      yxyx_to_xcycwh (xcycwh_to_yxyx ⟨0, 0, 2, 3⟩) = ⟨0, 0, 2, 3⟩ :=
  conversion_roundtrip ⟨0, 0, 2, 3⟩ (by norm_num) (by norm_num)

/-- Claim C7: `compute_iou` returns intersection area over union area, and
returns exactly 0 whenever the union is 0 (the division is guarded). -/
theorem compute_iou_guarded (b1 b2 : Box) (yxyx : Bool) :
    ((intersect_and_union b1 b2 yxyx).2 = 0 → compute_iou b1 b2 yxyx = 0) ∧
      ((intersect_and_union b1 b2 yxyx).2 ≠ 0 →
        compute_iou b1 b2 yxyx =
          (intersect_and_union b1 b2 yxyx).1 / (intersect_and_union b1 b2 yxyx).2) := by
  unfold compute_iou divide_no_nan
  constructor <;> intro h <;> simp [h]

/-- Witness for C7: a degenerate pair with union 0 yields 0, and an
overlapping pair with union 1 yields the actual quotient. -/
theorem compute_iou_guarded_witness :
    compute_iou ⟨0, 0, 0, 0⟩ ⟨0, 0, 0, 0⟩ true = 0 ∧
      compute_iou ⟨0, 0, 1, 1⟩ ⟨0, 0, 1, 1⟩ true =
        (intersect_and_union ⟨0, 0, 1, 1⟩ ⟨0, 0, 1, 1⟩ true).1 /
          (intersect_and_union ⟨0, 0, 1, 1⟩ ⟨0, 0, 1, 1⟩ true).2 := by
  constructor
  · exact (compute_iou_guarded ⟨0, 0, 0, 0⟩ ⟨0, 0, 0, 0⟩ true).1
      (by norm_num [intersect_and_union, min_def, max_def])
  · exact (compute_iou_guarded ⟨0, 0, 1, 1⟩ ⟨0, 0, 1, 1⟩ true).2
      (by norm_num [intersect_and_union, min_def, max_def])

/-- Claim C1 (code bug): for the disjoint center-form boxes
(1/4, 1/4, 1/2, 1/2) and (3/4, 3/4, 1/2, 1/2) the code returns
(iou, giou) = (0, 1), because `smallest_encompassing_box` takes the
elementwise minimum of the two max corners; the claim's formula, with the
true enclosing box of area 1 and union 1/2, gives iou − (C − union)/C = −1/2
instead. -/
theorem compute_giou_min_corner_bug :
    compute_giou ⟨1/4, 1/4, 1/2, 1/2⟩ ⟨3/4, 3/4, 1/2, 1/2⟩ false = (0, 1) ∧
      (compute_giou ⟨1/4, 1/4, 1/2, 1/2⟩ ⟨3/4, 3/4, 1/2, 1/2⟩ false).1 -
          (1 - (intersect_and_union ⟨1/4, 1/4, 1/2, 1/2⟩ ⟨3/4, 3/4, 1/2, 1/2⟩ false).2) / 1 =
        -(1/2) := by
  constructor
  · norm_num [compute_giou, intersect_and_union, smallest_encompassing_box, xcycwh_to_yxyx,
      yxyx_to_xcycwh, divide_no_nan, clip_by_value, min_def, max_def, Prod.ext_iff]
  · norm_num [compute_giou, intersect_and_union, smallest_encompassing_box, xcycwh_to_yxyx,
      yxyx_to_xcycwh, divide_no_nan, clip_by_value, min_def, max_def]

/-- Claim C10: `CenterNetParser.__init__` stores `use_gaussian_bump = True`
and `gaussian_rad = -1` no matter what was passed, so two parsers whose
constructor arguments differ only in those two fields are identical objects
and hence produce identical labels on every input. -/
theorem cparser_init_ignores_gaussian_args (a b : CParserArgs) (h : same_but_gaussian a b) :
    (∀ p, cparser_init a = Except.ok p → p.use_gaussian_bump = true ∧ p.gaussian_rad = -1) ∧
      cparser_init a = cparser_init b := by
  obtain ⟨h1, h2, h3, h4, h5, h6, h7⟩ := h
  constructor
  · intro p hp
    unfold cparser_init at hp
    split at hp
    · injection hp with hp
      subst hp
      exact ⟨rfl, rfl⟩
    · cases hp
  · unfold cparser_init
    rw [h1, h2, h3, h4, h5, h6, h7]

/-- Witness for C10 at two argument records differing exactly in
`use_gaussian_bump` and `gaussian_rad`. -/
theorem cparser_init_ignores_gaussian_args_witness :
    (∀ p, cparser_init ⟨512, 512, 90, 128, true, -1, 7/10, 128, "float32"⟩ = Except.ok p →
        p.use_gaussian_bump = true ∧ p.gaussian_rad = -1) ∧
      cparser_init ⟨512, 512, 90, 128, true, -1, 7/10, 128, "float32"⟩ =
        cparser_init ⟨512, 512, 90, 128, false, 3, 7/10, 128, "float32"⟩ :=
  cparser_init_ignores_gaussian_args _ _ ⟨rfl, rfl, rfl, rfl, rfl, rfl, rfl⟩

/-- Claim C3 (code bug): a parser constructed with `use_gaussian_bump=False`
still stores the flag as `True` (line 55 of `centernet_input.py` assigns the
literal), so the single-point branch of the heatmap builder is unreachable
and a Gaussian is splatted regardless of the configuration. -/
theorem cparser_init_gaussian_flag_forced :
    (cparser_init ⟨512, 512, 90, 128, false, -1, 7/10, 128, "float32"⟩).toOption.map
        (fun p => p.use_gaussian_bump) = some true := by
  decide

/-- Helper: `intersect_and_union` of two center-form boxes sharing a center
depends only on the widths and heights, so the IoU computed by
`get_best_anchor2` (anchor placed at the instance's own center) equals the
IoU with both boxes placed at the origin. -/
theorem intersect_and_union_center_invariant (x y w h w2 h2 : ℚ) :
    intersect_and_union ⟨x, y, w, h⟩ ⟨x, y, w2, h2⟩ false =
      intersect_and_union ⟨0, 0, w, h⟩ ⟨0, 0, w2, h2⟩ false := by
  have key : ∀ c a b : ℚ, (c + a) - (c - b) = a + b := fun c a b => by ring
  simp only [intersect_and_union, xcycwh_to_yxyx, zero_add, zero_sub,
    max_sub_sub_left, min_add_add_left, max_neg_neg, sub_neg_eq_add, key,
    Bool.false_eq_true, if_false]

/-- Helper: the same translation invariance for `compute_iou`. -/
theorem compute_iou_center_invariant (x y w h w2 h2 : ℚ) :
    compute_iou ⟨x, y, w, h⟩ ⟨x, y, w2, h2⟩ false =
      compute_iou ⟨0, 0, w, h⟩ ⟨0, 0, w2, h2⟩ false := by
  unfold compute_iou
  rw [intersect_and_union_center_invariant]

/-- Claim C5: for every non-degenerate instance, `get_best_anchor2` computes
the IoU of the instance's (width, height) against each anchor's rescaled
(width, height) as if both were placed at the origin, ranks all anchors by
descending IoU, and returns the rank-0 index unconditionally while every
further rank keeps its index only when its IoU reaches the threshold and is
-1 otherwise. -/
theorem get_best_anchor2_ranking (box : Box) (anchors : List (ℚ × ℚ))
    (width height thresh : ℚ) (hw : 0 < box.c2) (hh : 0 < box.c3)
    (hx0 : 0 ≤ box.c0) (hx1 : box.c0 < 1) (hy0 : 0 ≤ box.c1) (hy1 : box.c1 < 1) :
    (∀ y_true, (get_best_anchor2 y_true anchors width height thresh).1 =
      y_true.map (fun b => instance_anchor_indices b anchors width height thresh)) ∧
    anchor_ious box anchors width height =
      anchors.map (fun a =>
        compute_iou ⟨0, 0, box.c2, box.c3⟩ ⟨0, 0, a.1 / width, a.2 / height⟩ false) ∧
    (top_k_pairs (anchor_ious box anchors width height)).Perm
      (enum_from 0 (anchor_ious box anchors width height)) ∧
    (top_k_pairs (anchor_ious box anchors width height)).Sorted
      (fun p q => q.2 ≤ p.2) ∧
    (∀ r0 rest, top_k_pairs (anchor_ious box anchors width height) = r0 :: rest →
      instance_anchor_indices box anchors width height thresh =
        (r0.1 : ℤ) :: rest.map (fun p => if thresh ≤ p.2 then (p.1 : ℤ) else -1)) := by
  obtain ⟨x, y, w, h⟩ := box
  refine ⟨fun y_true => rfl, ?_, List.perm_insertionSort _ _, ?_, ?_⟩
  · unfold anchor_ious
    exact List.map_congr_left (fun a ha => compute_iou_center_invariant x y w h _ _)
  · exact (List.sorted_insertionSort rank_rel _).imp (fun hpq => by
      rcases hpq with hlt | ⟨heq, _⟩
      · exact le_of_lt hlt
      · exact le_of_eq heq.symm)
  · intro r0 rest heq
    unfold instance_anchor_indices
    rw [if_pos (mul_pos hw hh)]
    unfold best_anchor_indices
    rw [heq]

/-- Witness for C5 at a concrete non-degenerate instance with three anchors:
the ious are 1/4, 1, 1/4, the ranking is (1, 1), (0, 1/4), (2, 1/4), and all
three clear the threshold 1/5, so the output vector is rank-0 index 1
followed by the thresholded indices 0 and 2. -/
theorem get_best_anchor2_ranking_witness :
    (∀ y_true, (get_best_anchor2 y_true [((1:ℚ)/4, (1:ℚ)/4), (1/2, 1/2), (1, 1)] 1 1 (1/5)).1 =
      y_true.map (fun b =>
        instance_anchor_indices b [((1:ℚ)/4, (1:ℚ)/4), (1/2, 1/2), (1, 1)] 1 1 (1/5))) ∧
    anchor_ious ⟨1/2, 1/2, 1/2, 1/2⟩ [((1:ℚ)/4, (1:ℚ)/4), (1/2, 1/2), (1, 1)] 1 1 =
      [((1:ℚ)/4, (1:ℚ)/4), (1/2, 1/2), (1, 1)].map (fun a =>
        compute_iou ⟨0, 0, 1/2, 1/2⟩ ⟨0, 0, a.1 / 1, a.2 / 1⟩ false) ∧
    (top_k_pairs (anchor_ious ⟨1/2, 1/2, 1/2, 1/2⟩
        [((1:ℚ)/4, (1:ℚ)/4), (1/2, 1/2), (1, 1)] 1 1)).Perm
      (enum_from 0 (anchor_ious ⟨1/2, 1/2, 1/2, 1/2⟩
        [((1:ℚ)/4, (1:ℚ)/4), (1/2, 1/2), (1, 1)] 1 1)) ∧
    (top_k_pairs (anchor_ious ⟨1/2, 1/2, 1/2, 1/2⟩
        [((1:ℚ)/4, (1:ℚ)/4), (1/2, 1/2), (1, 1)] 1 1)).Sorted (fun p q => q.2 ≤ p.2) ∧
    instance_anchor_indices ⟨1/2, 1/2, 1/2, 1/2⟩
        [((1:ℚ)/4, (1:ℚ)/4), (1/2, 1/2), (1, 1)] 1 1 (1/5) =
      ((1 : ℕ) : ℤ) :: [((0 : ℕ), (1:ℚ)/4), ((2 : ℕ), (1:ℚ)/4)].map
        (fun p => if (1:ℚ)/5 ≤ p.2 then (p.1 : ℤ) else -1) := by
  have H := get_best_anchor2_ranking ⟨1/2, 1/2, 1/2, 1/2⟩
    [((1:ℚ)/4, (1:ℚ)/4), (1/2, 1/2), (1, 1)] 1 1 (1/5)
    (by norm_num) (by norm_num) (by norm_num) (by norm_num) (by norm_num) (by norm_num)
  refine ⟨H.1, H.2.1, H.2.2.1, H.2.2.2.1, ?_⟩
  refine H.2.2.2.2 (1, 1) [((0 : ℕ), (1:ℚ)/4), ((2 : ℕ), (1:ℚ)/4)] ?_
  norm_num [top_k_pairs, anchor_ious, enum_from, compute_iou, intersect_and_union,
    xcycwh_to_yxyx, divide_no_nan, min_def, max_def, List.insertionSort,
    List.orderedInsert, rank_rel, Prod.ext_iff]

/-- Claim C4 counterexample: the instance (xc=3/2, yc=1/2, w=1/2, h=1/2) has
its center x outside the interval from 0 to 1, yet `get_best_anchor2` still
returns the real anchor index 0 for it rather than the sentinel -1: the
center-range exclusion claimed for anchor matching does not happen there. -/
theorem center_outside_not_excluded :
    (get_best_anchor2 [⟨3/2, 1/2, 1/2, 1/2⟩] [((1:ℚ)/2, (1:ℚ)/2)] 1 1 (1/5)).1 = [[0]] ∧
      ¬ (0 : ℤ) = -1 := by
  constructor
  · norm_num [get_best_anchor2, instance_anchor_indices, best_anchor_indices, top_k_pairs,
      anchor_ious, enum_from, List.insertionSort, List.orderedInsert]
  · decide

/-- Claim C4 as amended: an instance is excluded entirely from anchor
matching (sentinel -1 at every rank) exactly when the product of its width
and height is not positive, which covers zero width or zero height; the
center coordinates play no role in `get_best_anchor2` (the center-range
filter is applied later, by `_gen_utility` in the grid encoder). -/
theorem degenerate_instance_all_sentinel (box : Box) (anchors : List (ℚ × ℚ))
    (width height thresh : ℚ) (h : box.c2 * box.c3 ≤ 0) :
    instance_anchor_indices box anchors width height thresh =
        List.replicate anchors.length (-1) ∧
      ∀ z ∈ instance_anchor_indices box anchors width height thresh, z = -1 := by
  unfold instance_anchor_indices
  rw [if_neg (not_lt.mpr h)]
  exact ⟨rfl, fun z hz => List.eq_of_mem_replicate hz⟩

/-- Witness for the amended C4 at a zero-width instance with two anchors. -/
theorem degenerate_instance_all_sentinel_witness :
    instance_anchor_indices ⟨1/2, 1/2, 0, 1⟩ [((1:ℚ)/2, (1:ℚ)/2), (1/4, 1/4)] 1 1 (1/5) =
        List.replicate 2 (-1) ∧
      ∀ z ∈ instance_anchor_indices ⟨1/2, 1/2, 0, 1⟩
          [((1:ℚ)/2, (1:ℚ)/2), (1/4, 1/4)] 1 1 (1/5), z = -1 :=
  degenerate_instance_all_sentinel ⟨1/2, 1/2, 0, 1⟩ _ 1 1 (1/5) (by norm_num)

/-- Helper: the `write_grid` loop writes exactly the records of the first
`num_instances - num_written` viable triples and advances the counter by the
number of records written. -/
theorem write_grid_eq (numreps : List ℕ) (boxes : List Box) (classes : List ℚ)
    (ious : List (List ℚ)) (height width : ℚ) (num_instances : ℕ) :
    ∀ (viable : List (ℕ × ℕ × ℕ)) (num_written : ℕ),
      write_grid viable numreps boxes classes ious height width num_written num_instances =
        ((viable.take (num_instances - num_written)).map
            (grid_write_of boxes classes ious numreps height width),
          num_written + min (num_instances - num_written) viable.length) := by
  intro viable
  induction viable with
  | nil =>
    intro n
    simp [write_grid]
  | cons t rest ih =>
    intro n
    by_cases hcap : num_instances ≤ n
    · have h0 : num_instances - n = 0 := Nat.sub_eq_zero_of_le hcap
      simp [write_grid, hcap, h0]
    · have h1 : num_instances - n = (num_instances - (n + 1)) + 1 := by omega
      simp only [write_grid, if_neg hcap, ih (n + 1), h1, List.take_succ_cons,
        List.map_cons]
      refine Prod.ext rfl ?_
      simp only [List.length_cons]
      omega

/-- Claim C6: the grid encoder writes exactly the records of the first
`capacity` viable (instance, rank, slot) triples, primary pass first and then
(when tie breaking is on) the alternate pass, where the capacity is the
number of boxes; every later viable triple is dropped without being written,
and the function is total, so no error is raised on overflow. -/
theorem grid_writes_capacity (boxes : List Box) (classes : List ℚ)
    (anchors : List (List ℚ)) (ious : List (List ℚ)) (mask : List ℚ) (size : ℚ)
    (tie : Bool) :
    grid_writes boxes classes anchors ious mask size tie =
      ((viable_primary anchors mask (boxes.map gen_utility) ++
          (if tie then viable_alternate anchors mask (boxes.map gen_utility) else [])).take
          boxes.length).map
        (grid_write_of boxes classes ious (anchors.map (fun r => num_reps_of r mask)) size
          size) ∧
      (grid_writes boxes classes anchors ious mask size tie).length ≤ boxes.length := by
  have main : grid_writes boxes classes anchors ious mask size tie =
      ((viable_primary anchors mask (boxes.map gen_utility) ++
          (if tie then viable_alternate anchors mask (boxes.map gen_utility) else [])).take
          boxes.length).map
        (grid_write_of boxes classes ious (anchors.map (fun r => num_reps_of r mask)) size
          size) := by
    unfold grid_writes
    cases tie with
    | false =>
      simp only [Bool.false_eq_true, if_false, write_grid_eq, Nat.sub_zero, zero_add,
        List.append_nil]
    | true =>
      simp only [if_true, write_grid_eq, Nat.sub_zero, zero_add,
        List.take_append_eq_append_take, List.map_append]
      congr 3
      omega
  refine ⟨main, ?_⟩
  rw [main]
  calc (((viable_primary anchors mask (boxes.map gen_utility) ++
          (if tie then viable_alternate anchors mask (boxes.map gen_utility) else [])).take
          boxes.length).map
        (grid_write_of boxes classes ious (anchors.map (fun r => num_reps_of r mask)) size
          size)).length
      = ((viable_primary anchors mask (boxes.map gen_utility) ++
          (if tie then viable_alternate anchors mask (boxes.map gen_utility) else [])).take
          boxes.length).length := List.length_map _ _
    _ ≤ boxes.length := List.length_take_le _ _

/-- Helper: folding the update function over an ordered write list computes,
at every destination, the record of the last write to that destination (or
the initial grid's content when no write targets it). -/
theorem scatter_update_last (writes : List (GridIdx × Sample)) :
    ∀ (g : GridIdx → Option Sample) (idx : GridIdx),
      writes.foldl (fun g w idx => if idx = w.1 then some w.2 else g idx) g idx =
        ((writes.filter (fun w => decide (w.1 = idx))).getLast?).elim (g idx)
          (fun w => some w.2) := by
  induction writes with
  | nil =>
    intro g idx
    simp
  | cons w rest ih =>
    intro g idx
    simp only [List.foldl_cons, List.filter_cons]
    rw [ih]
    by_cases hw : w.1 = idx
    · rw [if_pos (show decide (w.1 = idx) = true by simp [hw]),
        if_pos (show idx = w.1 from hw.symm)]
      cases hfr : rest.filter (fun w => decide (w.1 = idx)) with
      | nil =>
        simp
      | cons a l =>
        rw [List.getLast?_cons_cons]
        cases hlast : (a :: l).getLast? with
        | none =>
          exact absurd hlast (by simp)
        | some b =>
          simp [hlast]
    · rw [if_neg (show ¬ decide (w.1 = idx) = true by simp [hw]),
        if_neg (show ¬ idx = w.1 from fun h => hw h.symm)]

/-- Helper: a left-to-right concatenation of blocks whose elements all carry
their block's index has nondecreasing first components. -/
theorem pairwise_fst_le_range_flatMap {α : Type} (n : ℕ) (f : ℕ → List (ℕ × α))
    (hf : ∀ i x, x ∈ f i → x.1 = i) :
    ((List.range n).flatMap f).Pairwise (fun a b => a.1 ≤ b.1) := by
  induction n with
  | zero => simp
  | succ m ih =>
    rw [List.range_succ, List.flatMap_append]
    apply List.pairwise_append.mpr
    refine ⟨ih, ?_, ?_⟩
    · simp only [List.flatMap_cons, List.flatMap_nil, List.append_nil]
      apply List.pairwise_of_forall_mem_list
      intro a ha b hb
      rw [hf m a ha, hf m b hb]
    · intro a ha b hb
      simp only [List.flatMap_cons, List.flatMap_nil, List.append_nil] at hb
      obtain ⟨i, hi, hai⟩ := List.mem_flatMap.mp ha
      rw [hf i a hai, hf m b hb]
      exact Nat.le_of_lt (List.mem_range.mp hi)

/-- Claim C2: applying the grid encoder's ordered write list to a dense grid
leaves, at every (row, col, anchor-slot) cell, exactly the record of the last
write targeting that cell — each cell holds at most one record and earlier
competing records are overwritten — and the write list respects the mandated
order: `grid_writes` emits the primary pass before the alternate pass, and
within each pass the viable triples are in ascending instance order. -/
theorem grid_last_write_wins (boxes : List Box) (classes : List ℚ)
    (anchors : List (List ℚ)) (ious : List (List ℚ)) (mask : List ℚ) (size : ℚ)
    (tie : Bool) (idx : GridIdx) :
    scatter_update (grid_writes boxes classes anchors ious mask size tie) idx =
      (((grid_writes boxes classes anchors ious mask size tie).filter
          (fun w => decide (w.1 = idx))).getLast?).map (fun w => w.2) ∧
      (viable_primary anchors mask (boxes.map gen_utility)).Pairwise
        (fun a b => a.1 ≤ b.1) ∧
      (viable_alternate anchors mask (boxes.map gen_utility)).Pairwise
        (fun a b => a.1 ≤ b.1) := by
  refine ⟨?_, ?_, ?_⟩
  · unfold scatter_update
    rw [scatter_update_last]
    cases hl : ((grid_writes boxes classes anchors ious mask size tie).filter
        (fun w => decide (w.1 = idx))).getLast? with
    | none => simp
    | some b => simp
  · unfold viable_primary
    apply pairwise_fst_le_range_flatMap
    intro i x hx
    by_cases hbm : (boxes.map gen_utility).getD i false = true
    · rw [if_pos hbm] at hx
      obtain ⟨m, hm, hxm⟩ := List.mem_map.mp hx
      rw [← hxm]
    · rw [if_neg hbm] at hx
      cases hx
  · unfold viable_alternate
    apply pairwise_fst_le_range_flatMap
    intro i x hx
    by_cases hbm : (boxes.map gen_utility).getD i false = true
    · rw [if_pos hbm] at hx
      obtain ⟨r, hr, hxr⟩ := List.mem_flatMap.mp hx
      obtain ⟨m, hm, hxm⟩ := List.mem_map.mp hxr
      rw [← hxm]
    · rw [if_neg hbm] at hx
      cases hx

/-- Helper: the k-means loop completes at most `fuel` assign-update
iterations beyond the count it starts from. -/
theorem kmeans_loop_iters_le (boxes : List (ℚ × ℚ)) (fuel : ℕ) :
    ∀ (clusters : List (ℚ × ℚ)) (last : List ℕ) (iters : ℕ),
      (kmeans_loop boxes fuel clusters last iters).2 ≤ iters + fuel := by
  induction fuel with
  | zero =>
    intro c l i
    simp [kmeans_loop]
  | succ n ih =>
    intro c l i
    unfold kmeans_loop
    by_cases h : km_assign boxes c = l
    · rw [if_pos h]
      omega
    · rw [if_neg h]
      calc (kmeans_loop boxes n (km_update boxes (km_assign boxes c) c.length)
              (km_assign boxes c) (i + 1)).2
          ≤ (i + 1) + n := ih _ _ _
        _ ≤ i + (n + 1) := by omega

/-- Claim C9: for a non-empty corpus and a cluster count within the corpus
size, `run_kmeans` terminates, completing at most `max_iter` assign-update
iterations, stops as soon as the assignment is unchanged from the previous
iteration, and returns the clusters sorted by ascending area. -/
theorem run_kmeans_terminates (boxes init_clusters : List (ℚ × ℚ)) (max_iter : ℕ)
    (hne : boxes ≠ []) (hk : init_clusters.length ≤ boxes.length) :
    (run_kmeans boxes init_clusters max_iter).2 ≤ max_iter ∧
      (run_kmeans boxes init_clusters max_iter).1.Sorted area_le ∧
      (∀ fuel clusters last iters, km_assign boxes clusters = last →
        kmeans_loop boxes (fuel + 1) clusters last iters = (clusters, iters)) := by
  refine ⟨?_, ?_, ?_⟩
  · unfold run_kmeans
    have h := kmeans_loop_iters_le boxes max_iter init_clusters
      (List.replicate boxes.length 0) 0
    simpa using h
  · unfold run_kmeans sort_by_area
    exact List.sorted_insertionSort area_le _
  · intro fuel clusters last iters h
    unfold kmeans_loop
    rw [if_pos h]

/-- Witness for C9 on a concrete 3-box corpus with 2 initial clusters. -/
theorem run_kmeans_terminates_witness :
    (run_kmeans [(1, 1), (2, 2), (3, 3)] [(3, 3), (1, 1)] 5).2 ≤ 5 ∧
      (run_kmeans [(1, 1), (2, 2), (3, 3)] [(3, 3), (1, 1)] 5).1.Sorted area_le ∧
      (∀ fuel clusters last iters,
        km_assign [(1, 1), (2, 2), (3, 3)] clusters = last →
          kmeans_loop [(1, 1), (2, 2), (3, 3)] (fuel + 1) clusters last iters =
            (clusters, iters)) :=
  run_kmeans_terminates [(1, 1), (2, 2), (3, 3)] [(3, 3), (1, 1)] 5 (by simp) (by norm_num)
